import Mathlib

/-
Verification development for the bone-graph builder, path-hash identity index
and physics-rig mapper of `src/blender/asset.py` (sssekai_blender_io).

The Python source is shallowly embedded:
  * `search_env_meshes`'s inner `dfs` closure (asset.py lines 31-86) becomes
    the state-passing function `dfsF` below; the mutable `Bone` objects are
    split into a payload record `BoneData` (everything except the children
    list) plus the tree structure `BoneTree`/`BoneForest`, since the children
    list of a Python `Bone` is only ever filled by its own recursive call.
  * Python dicts become association lists with in-place overwrite semantics
    (`dinsert`), matching CPython's insertion-order behaviour.
  * A raised `KeyError` (the `path_id_tbl[...]` lookup on line 66) becomes
    `Except.error`.
  * Rational numbers stand in for the floating-point payload values; none of
    the verified properties depend on rounding.
  * `math.radians` is an external library function and is passed in as an
    explicit parameter `radians : ℚ → ℚ` where needed.
  * Blender (`bpy`) scene mutation is modelled by the explicit state
    `PhysScene`; only the effects the source performs on it are recorded.
-/

set_option maxRecDepth 4000

namespace SekaiAsset

/-- 3-component vector payload (`m_LocalPosition` / `m_LocalScale`). -/
structure V3 where
  x : ℚ
  y : ℚ
  z : ℚ
deriving DecidableEq

/-- 4-component quaternion payload (`m_LocalRotation`). -/
structure V4 where
  x : ℚ
  y : ℚ
  z : ℚ
  w : ℚ
deriving DecidableEq

/-- A Python `dict` modelled as an association list: lookups scan from the
front, and `dinsert` overwrites an existing key in place or appends a fresh
key at the end, exactly like CPython's insertion-ordered dictionaries. -/
abbrev Dict (α β : Type) : Type := List (α × β)

def dlookup {α β : Type} [DecidableEq α] (d : Dict α β) (k : α) : Option β :=
  match d with
  | [] => none
  | (k', v) :: rest => if k' = k then some v else dlookup rest k

def dinsert {α β : Type} [DecidableEq α] (d : Dict α β) (k : α) (v : β) : Dict α β :=
  match d with
  | [] => [(k, v)]
  | (k', v') :: rest => if k' = k then (k, v) :: rest else (k', v') :: dinsert rest k v

def dvalues {α β : Type} (d : Dict α β) : List β := d.map Prod.snd

/-- One round of the reflected CRC-32 bit loop (polynomial 0xEDB88320). -/
def crc32Round (c : Nat) : Nat :=
  if c % 2 = 1 then Nat.xor (c / 2) 0xEDB88320 else c / 2

def iter8 (f : Nat → Nat) (c : Nat) : Nat :=
  f (f (f (f (f (f (f (f c)))))))

def crc32Byte (c b : Nat) : Nat :=
  iter8 crc32Round (Nat.xor c (b % 256))

/-- Modelled from the spec: `get_name_hash` is not part of `src/`; the spec
fixes it as "a standard 32-bit cyclic-redundancy hash over the UTF-8 bytes of
the path string", and the source comments call it the CRC32 of the full bone
path.  This is standard CRC-32 (init `0xFFFFFFFF`, reflected polynomial
`0xEDB88320`, final xor `0xFFFFFFFF`).  Bone names in all fixtures are ASCII,
for which the code points below coincide with the UTF-8 bytes. -/
def get_name_hash (s : String) : Nat :=
  Nat.xor (s.data.foldl (fun c ch => crc32Byte c ch.toNat) 0xFFFFFFFF) 0xFFFFFFFF

/-- Pair of angular limits (`.min` / `.max`), in degrees as stored in the
serialized spring-bone component. -/
structure AngleLimits where
  min : ℚ
  max : ℚ
deriving DecidableEq

/-- The field dictionary obtained from `component.read_typetree()` (asset.py
line 52), restricted to the fields the import pipeline reads.  `pivotNode`
is `some pathId` exactly when the key `'pivotNode'` is present in the dict,
holding the referenced transform's `m_PathID`. -/
structure PhysicsFields where
  radius : ℚ := 0
  height : ℚ := 0
  zAngleLimits : AngleLimits := ⟨0, 0⟩
  yAngleLimits : AngleLimits := ⟨0, 0⟩
  angularStiffness : ℚ := 0
  pivotNode : Option Int := none
deriving DecidableEq

inductive BonePhysicsType where
  | NoPhysics
  | SphereCollider
  | CapsuleCollider
  | SpringBone
  | SpringManager
deriving DecidableEq

/-- `child.physics.type & BonePhysicsType.Collider` (asset.py line 290). -/
def BonePhysicsType.isCollider : BonePhysicsType → Bool
  | .SphereCollider => true
  | .CapsuleCollider => true
  | _ => false

/-- `child.physics.type & BonePhysicsType.Bone` (asset.py line 312).
Modelled from the spec's classification {collider, spring-bone,
spring-manager}; only the `SpringBone` case is observable, since the branch
guarded by this flag immediately tests `type == SpringBone`. -/
def BonePhysicsType.isBone : BonePhysicsType → Bool
  | .SpringBone => true
  | .SpringManager => true
  | _ => false

/-- The physics descriptor attached to a bone (`BonePhysics` in the source
library).  `pivot` is the resolved pivot bone NAME (asset.py line 66), set
only when the component dictionary contains `'pivotNode'`. -/
structure BonePhysics where
  type : BonePhysicsType
  radius : ℚ
  height : ℚ
  zAngleLimits : AngleLimits
  yAngleLimits : AngleLimits
  angularStiffness : ℚ
  pivot : Option String
deriving DecidableEq

/-- Modelled from the spec: `BonePhysics.from_dict` is not part of `src/`;
the spec says the descriptor is "constructed from the component's field
dictionary", so it copies the payload fields; `type` is overwritten right
after the call (asset.py line 64) and `pivot` is absent unless resolved. -/
def BonePhysics.from_dict (f : PhysicsFields) : BonePhysics :=
  { type := .NoPhysics
    radius := f.radius
    height := f.height
    zAngleLimits := f.zAngleLimits
    yAngleLimits := f.yAngleLimits
    angularStiffness := f.angularStiffness
    pivot := none }

/-- A component of a `GameObject`.  `monoBehaviour script fields` stands for a
component of `ClassIDType.MonoBehaviour` whose `m_Script` reference, when
present, reads to a script named `script`; any other component type is
`other` (the loop at asset.py line 47 skips those). -/
inductive ComponentData where
  | monoBehaviour (m_Script : Option String) (fields : PhysicsFields)
  | other
deriving DecidableEq

/-- The script-name classification at asset.py lines 53-61.  The source uses
four consecutive `if`s on `physicsScript.name`; the names are pairwise
distinct so the chain below is equivalent. -/
def classifyScript (n : String) : Option BonePhysicsType :=
  if n = "SpringSphereCollider" then some .SphereCollider
  else if n = "SpringCapsuleCollider" then some .CapsuleCollider
  else if n = "SekaiSpringBone" then some .SpringBone
  else if n = "SpringManager" then some .SpringManager
  else none

def ComponentData.isRecognized : ComponentData → Bool
  | .monoBehaviour (some s) _ => (classifyScript s).isSome
  | _ => false

def anyRecognized (cs : List ComponentData) : Bool :=
  cs.any ComponentData.isRecognized

structure GameObjectData where
  m_Name : String
  m_SkinnedMeshRenderer : Bool
  m_Components : List ComponentData
deriving DecidableEq

/-- The payload of a Python `Bone` object (asset.py lines 67-77), minus the
`parent` back-pointer and the `children` list, which are represented by the
tree structure `BoneTree` below (`edit_bone` is always `None` during this
pass and is omitted). -/
structure BoneData where
  name : String
  localPosition : V3
  localRotation : V4
  localScale : V3
  global_path : String
  physics : Option BonePhysics
deriving DecidableEq

mutual
inductive BoneTree where
  | node (data : BoneData) (children : BoneForest)
deriving DecidableEq
inductive BoneForest where
  | nil
  | cons (head : BoneTree) (tail : BoneForest)
deriving DecidableEq
end

mutual
inductive Transform where
  | mk (path_id : Int) (m_GameObject : GameObjectData) (m_LocalPosition : V3)
       (m_LocalRotation : V4) (m_LocalScale : V3) (m_Children : TransformForest)
deriving DecidableEq
inductive TransformForest where
  | nil
  | cons (head : Transform) (tail : TransformForest)
deriving DecidableEq
end

def Transform.gameObject : Transform → GameObjectData
  | .mk _ go _ _ _ _ => go

def BoneTree.data : BoneTree → BoneData
  | .node b _ => b

/-- The mutable state threaded through `dfs`: the traversal-local
`path_id_tbl` plus the `Armature` attributes the closure assigns
(asset.py lines 27-30, 37, 78-82). -/
structure AState where
  path_id_tbl : Dict Int BoneData
  bone_name_tbl : Dict String BoneData
  bone_path_hash_tbl : Dict Nat BoneData
  root : Option BoneData
  skinned_mesh_gameobject : Option GameObjectData
deriving DecidableEq

/-- The component scan of asset.py lines 46-66: fold over `m_Components`,
keeping the last recognized physics script's descriptor; a `pivotNode`
reference is resolved against the current `path_id_tbl`, raising (`Except.error`)
when the path id has not been registered yet. -/
def buildPhysicsAux (tbl : Dict Int BoneData) (acc : Option BonePhysics) :
    List ComponentData → Except String (Option BonePhysics)
  | [] => .ok acc
  | .other :: rest => buildPhysicsAux tbl acc rest
  | .monoBehaviour none _ :: rest => buildPhysicsAux tbl acc rest
  | .monoBehaviour (some sname) fields :: rest =>
    match classifyScript sname with
    | none => buildPhysicsAux tbl acc rest
    | some ty =>
      let bp := { BonePhysics.from_dict fields with type := ty }
      match fields.pivotNode with
      | none => buildPhysicsAux tbl (some bp) rest
      | some pid =>
        match dlookup tbl pid with
        | none => .error "KeyError: pivotNode m_PathID not in path_id_tbl"
        | some b => buildPhysicsAux tbl (some { bp with pivot := some b.name }) rest

def buildPhysics (tbl : Dict Int BoneData) (comps : List ComponentData) :
    Except String (Option BonePhysics) :=
  buildPhysicsAux tbl none comps

/-- asset.py lines 36-37: record the game object when it carries a skinned
mesh renderer (later nodes overwrite earlier ones). -/
def stepSkinned (go : GameObjectData) (st : AState) : AState :=
  if go.m_SkinnedMeshRenderer then { st with skinned_mesh_gameobject := some go }
  else st

/-- asset.py lines 39-43: `path_from_root` starts as `''` and is only
rewritten when a parent exists — to `parent.global_path + '/' + name` when
the parent's path is non-empty (truthy), and to the bare `name` otherwise. -/
def childPath (pp : Option String) (name : String) : String :=
  match pp with
  | none => ""
  | some p => if p ≠ "" then p ++ "/" ++ name else name

/-- asset.py lines 78-80: register the bone under its transform `path_id`,
its display name, and the hash of its path. -/
def registerBone (hash : String → Nat) (st : AState) (pid : Int)
    (bone : BoneData) : AState :=
  { st with
    path_id_tbl := dinsert st.path_id_tbl pid bone
    bone_name_tbl := dinsert st.bone_name_tbl bone.name bone
    bone_path_hash_tbl := dinsert st.bone_path_hash_tbl (hash bone.global_path) bone }

/-- asset.py lines 81-84: a parentless bone becomes `armature.root`; any
other bone is attached to its parent (the attachment is the tree node
returned by `dfsF`). -/
def setRoot (pp : Option String) (bone : BoneData) (st : AState) : AState :=
  match pp with
  | none => { st with root := some bone }
  | some _ => st

/-- The recursive `dfs` closure of `search_env_meshes` (asset.py lines 31-86),
generalized to a forest so that the sibling loop (line 85) and the recursive
call share one function.  `pp` is `none` for the call on the root transform
(Python `parent = None`) and `some p` when the parent bone has
`global_path = p`.  Per node, in source order: record a skinned-mesh
game object (line 37), compute `path_from_root` (lines 39-43), scan
components (lines 46-66, may raise), build the bone (67-77), register it in
the three tables (78-80), set the armature root or attach to the parent
(81-84), then recurse into the children (85-86). -/
def dfsF (hash : String → Nat) (st : AState) (pp : Option String) :
    TransformForest → Except String (BoneForest × AState)
  | .nil => .ok (.nil, st)
  | .cons (.mk pid go lp lr ls cs) ts =>
    let st1 := stepSkinned go st
    let path := childPath pp go.m_Name
    match buildPhysics st1.path_id_tbl go.m_Components with
    | .error e => .error e
    | .ok phys =>
      let bone : BoneData :=
        { name := go.m_Name, localPosition := lp, localRotation := lr,
          localScale := ls, global_path := path, physics := phys }
      let st3 := setRoot pp bone (registerBone hash st1 pid bone)
      match dfsF hash st3 (some path) cs with
      | .error e => .error e
      | .ok (subs, st4) =>
        match dfsF hash st4 pp ts with
        | .error e => .error e
        | .ok (rest, st5) => .ok (.cons (.node bone subs) rest, st5)

/-- The fresh per-root state of asset.py lines 27-30 (the `Armature`
constructor leaves `root` and `skinned_mesh_gameobject` unset, which the
code tests for truthiness; modelled from the spec as `none`). -/
def initState : AState :=
  { path_id_tbl := [], bone_name_tbl := [], bone_path_hash_tbl := [],
    root := none, skinned_mesh_gameobject := none }

/-- The reconstructed armature of one root transform (the `Armature` object
of asset.py lines 27-29 after `dfs(root)` finished). -/
structure ArmatureE where
  name : String
  bone_name_tbl : Dict String BoneData
  bone_path_hash_tbl : Dict Nat BoneData
  root : Option BoneData
  skinned_mesh_gameobject : Option GameObjectData
deriving DecidableEq

def buildArmature (hash : String → Nat) (rootT : Transform) :
    Except String (ArmatureE × BoneForest) :=
  match dfsF hash initState none (.cons rootT .nil) with
  | .error e => .error e
  | .ok (bf, st) =>
    .ok ({ name := rootT.gameObject.m_Name
           bone_name_tbl := st.bone_name_tbl
           bone_path_hash_tbl := st.bone_path_hash_tbl
           root := st.root
           skinned_mesh_gameobject := st.skinned_mesh_gameobject }, bf)

/-- The armature-collecting loop of `search_env_meshes` (asset.py lines
25-89): one fresh state per root, keep the armature only when a skinned mesh
renderer was seen in its subtree (line 88). -/
def search_env_meshes_armatures (hash : String → Nat) :
    List Transform → Except String (List ArmatureE)
  | [] => .ok []
  | r :: rs =>
    match buildArmature hash r with
    | .error e => .error e
    | .ok (arm, _) =>
      match search_env_meshes_armatures hash rs with
      | .error e => .error e
      | .ok arms =>
        .ok (if arm.skinned_mesh_gameobject.isSome then arm :: arms else arms)

/-- Pre-order list of the game objects of a transform forest. -/
def preGOsF : TransformForest → List GameObjectData
  | .nil => []
  | .cons (.mk _ go _ _ _ cs) ts => go :: (preGOsF cs ++ preGOsF ts)

/-- Pre-order list of the `path_id`s of a transform forest. -/
def preIdsF : TransformForest → List Int
  | .nil => []
  | .cons (.mk pid _ _ _ _ cs) ts => pid :: (preIdsF cs ++ preIdsF ts)

/-- Pre-order list of the bone payloads of a bone forest. -/
def preBonesF : BoneForest → List BoneData
  | .nil => []
  | .cons (.node b subs) rest => b :: (preBonesF subs ++ preBonesF rest)

/-- Does any game object in the forest carry a skinned mesh renderer
(the condition of asset.py line 36, over a whole subtree)? -/
def anySkinnedF : TransformForest → Bool
  | .nil => false
  | .cons (.mk _ go _ _ _ cs) ts =>
    go.m_SkinnedMeshRenderer || anySkinnedF cs || anySkinnedF ts

def Transform.anySkinned (t : Transform) : Bool :=
  anySkinnedF (.cons t .nil)

mutual
inductive PTree where
  | node (children : PForest)
deriving DecidableEq
inductive PForest where
  | nil
  | cons (head : PTree) (tail : PForest)
deriving DecidableEq
end

/-- The pure shape (parent/child structure) of a transform forest. -/
def shapeTF : TransformForest → PForest
  | .nil => .nil
  | .cons (.mk _ _ _ _ _ cs) ts => .cons (.node (shapeTF cs)) (shapeTF ts)

/-- The pure shape (parent/child structure) of a bone forest. -/
def shapeBF : BoneForest → PForest
  | .nil => .nil
  | .cons (.node _ subs) rest => .cons (.node (shapeBF subs)) (shapeBF rest)

/-- The path rule of asset.py lines 39-43, restated as a function of the
parent bone's path: the root bone (no parent) gets the empty path, a bone
whose parent has the empty path gets its own name, and any other bone gets
the parent's path, a slash, and its own name. -/
def pathOfParent : Option String → String → String
  | none, _ => ""
  | some p, n => if p = "" then n else p ++ "/" ++ n

/-- Every bone's `global_path` agrees with `pathOfParent` applied to its
parent's `global_path` (`pp` is the parent path of the forest's top level). -/
def pathsOkF (pp : Option String) : BoneForest → Bool
  | .nil => true
  | .cons (.node b subs) rest =>
    (b.global_path = pathOfParent pp b.name : Bool)
      && pathsOkF (some b.global_path) subs && pathsOkF pp rest

/-- Number of nodes of a shape forest. -/
def sizePF : PForest → Nat
  | .nil => 0
  | .cons (.node cs) ts => 1 + sizePF cs + sizePF ts

/-- The last top-level bone of a forest (the bone `armature.root` holds
after the siblings of one `dfs(root)` call have all been processed). -/
def lastTop : BoneForest → Option BoneData
  | .nil => none
  | .cons (.node b _) rest =>
    match lastTop rest with
    | some x => some x
    | none => some b

/-- The last element of `l` whose `key` equals `k` — i.e. the element a
Python dict maps `k` to after inserting all of `l` in order. -/
def lastVal {α β : Type} [DecidableEq α] (key : β → α) (k : α) : List β → Option β
  | [] => none
  | b :: bs =>
    match lastVal key k bs with
    | some x => some x
    | none => if key b = k then some b else none

/-- What a Python dict maps `k` to after inserting every element of `l`
(keyed by `key`) over an existing binding `fallback`: the last matching
element of `l`, else the old binding. -/
def overwriteLookup {α β : Type} [DecidableEq α] (key : β → α) (k : α)
    (l : List β) (fallback : Option β) : Option β :=
  match lastVal key k l with
  | some b => some b
  | none => fallback

/- ------------------------------------------------------------------
   Physics-rig mapper (`import_armature_physics_constraints`,
   asset.py lines 269-410).
   ------------------------------------------------------------------ -/

/-- Modelled from the spec: `Bone.recursive_locate_by_name` is not part of
`src/`; per the spec the mapper "locates the conventionally-named skeleton
root bone", i.e. depth-first search for the first bone with the given name. -/
def recursiveLocateByNameF : BoneForest → String → Option BoneTree
  | .nil, _ => none
  | .cons (.node b subs) rest, n =>
    if b.name = n then some (.node b subs)
    else match recursiveLocateByNameF subs n with
      | some r => some r
      | none => recursiveLocateByNameF rest n

def recursive_locate_by_name (t : BoneTree) (n : String) : Option BoneTree :=
  recursiveLocateByNameF (.cons t .nil) n

/-- Modelled from the spec: `Bone.dfs_generator` is not part of `src/`; per
the spec it traverses the finished bone tree depth-first, yielding
`(parent, child, depth)` triples in pre-order.  Only the `child` component
is used by the mapper, so the yield is reduced to the child payloads. -/
def dfs_generator (t : BoneTree) : List BoneData :=
  preBonesF (.cons t .nil)

/-- A rigid-body object inserted into the Blender scene, restricted to the
attributes asset.py assigns (lines 293-341): primitive shape and size,
passive/active, kinematic flag, first collision-collection bit, and the
bone-parenting data. -/
structure RBObj where
  name : String
  collision_shape : String
  body_type : String
  kinematic : Bool
  collision_enabled : Bool
  parent_bone : Option String
  radius : ℚ
  depth : ℚ
deriving DecidableEq

/-- A `GENERIC_SPRING` rigid-body constraint, restricted to the fields
asset.py assigns (lines 358-385). -/
structure RBConstraint where
  use_limit_lin_x : Bool
  use_limit_lin_y : Bool
  use_limit_lin_z : Bool
  limit_lin_x_lower : ℚ
  limit_lin_x_upper : ℚ
  limit_lin_y_lower : ℚ
  limit_lin_y_upper : ℚ
  limit_lin_z_lower : ℚ
  limit_lin_z_upper : ℚ
  use_limit_ang_x : Bool
  use_limit_ang_y : Bool
  use_limit_ang_z : Bool
  limit_ang_y_lower : ℚ
  limit_ang_y_upper : ℚ
  limit_ang_z_lower : ℚ
  limit_ang_z_upper : ℚ
  use_spring_ang_x : Bool
  use_spring_ang_y : Bool
  use_spring_ang_z : Bool
  spring_stiffness_x : ℚ
  spring_stiffness_y : ℚ
  spring_stiffness_z : ℚ
  object1 : String
  object2 : String
deriving DecidableEq

/-- Blender's defaults for a freshly added `GENERIC_SPRING` constraint
(external host API; the verified properties only depend on fields the
source assigns explicitly). -/
def defaultGenericSpring : RBConstraint :=
  { use_limit_lin_x := false, use_limit_lin_y := false, use_limit_lin_z := false
    limit_lin_x_lower := -1, limit_lin_x_upper := 1
    limit_lin_y_lower := -1, limit_lin_y_upper := 1
    limit_lin_z_lower := -1, limit_lin_z_upper := 1
    use_limit_ang_x := false, use_limit_ang_y := false, use_limit_ang_z := false
    limit_ang_y_lower := -45, limit_ang_y_upper := 45
    limit_ang_z_lower := -45, limit_ang_z_upper := 45
    use_spring_ang_x := false, use_spring_ang_y := false, use_spring_ang_z := false
    spring_stiffness_x := 10, spring_stiffness_y := 10, spring_stiffness_z := 10
    object1 := "", object2 := "" }

/-- The Blender-side state mutated by the mapper: scene objects keyed by
name, the constraints of the created `SpringBoneJoint` empties, the
`COPY_TRANSFORMS` pose constraints `(bone name, target object name)`, and
the `NoCollisionJoint` links `(object1 name, object2 name)`. -/
structure PhysScene where
  objects : Dict String RBObj
  spring_joints : List RBConstraint
  pose_constraints : List (String × String)
  nocollision_joints : List (String × String)
deriving DecidableEq

def PIVOT_SIZE : ℚ := 1 / 250
def SPHERE_RADIUS_FACTOR : ℚ := 1 / 2
def CAPSULE_RADIUS_FACTOR : ℚ := 1
def CAPSULE_HEIGHT_FACTOR : ℚ := 1
def SPRINGBONE_RADIUS_FACTOR : ℚ := 1 / 2

/-- `get_rb_name` (asset.py lines 314-315). -/
def get_rb_name (armName bone_name : String) (isPivot : Bool) : String :=
  armName ++ "_" ++ bone_name ++ "_" ++ (if isPivot then "pivot" else "target")
    ++ "_rigidbody"

/-- Python string interpolation of a possibly-absent pivot name
(`f'..{bone_name}..'` renders `None` as the string `"None"`). -/
def optStr : Option String → String
  | some s => s
  | none => "None"

/-- `ensure_bone_rigidbody` (asset.py lines 316-343): look the deterministic
name up in the scene; when absent, create a sphere rigid body (kinematic
non-colliding bone-parented for a pivot; dynamic colliding, and recorded in
`target_rigid_bodies`, for a target) and insert it; when present, return the
existing object and change nothing.  The world-transform assignment for a
target (lines 335-340) touches only host pose state and is not recorded. -/
def ensure_bone_rigidbody (armName : String) (scene : PhysScene)
    (targets : Dict String RBObj) (bone_name : String) (isPivot : Bool)
    (radius : ℚ) : RBObj × PhysScene × Dict String RBObj :=
  let fullname := get_rb_name armName bone_name isPivot
  match dlookup scene.objects fullname with
  | some o => (o, scene, targets)
  | none =>
    let obj : RBObj :=
      { name := fullname, collision_shape := "SPHERE", body_type := "ACTIVE"
        kinematic := isPivot, collision_enabled := !isPivot
        parent_bone := if isPivot then some bone_name else none
        radius := radius, depth := 0 }
    let scene := { scene with objects := dinsert scene.objects fullname obj }
    let targets := if isPivot then targets else dinsert targets fullname obj
    (obj, scene, targets)

/-- The constraint configuration of asset.py lines 356-385, applied to a
fresh `GENERIC_SPRING` constraint: lock all linear axes to zero, leave the
x angular axis unlimited, map the descriptor's z angle limits (converted by
`math.radians`) to the y axis and its y angle limits to the z axis, enable
angular springs, set the y and z stiffness from the descriptor, and link
the pivot and target objects. -/
def mkSpringConstraint (radians : ℚ → ℚ) (phys : BonePhysics)
    (pivotName targetName : String) : RBConstraint :=
  let ct := defaultGenericSpring
  let ct := { ct with use_limit_lin_x := true, use_limit_lin_y := true,
                      use_limit_lin_z := true }
  let ct := { ct with limit_lin_x_lower := 0, limit_lin_x_upper := 0,
                      limit_lin_y_lower := 0, limit_lin_y_upper := 0,
                      limit_lin_z_lower := 0, limit_lin_z_upper := 0 }
  let ct := { ct with use_limit_ang_x := false, use_limit_ang_y := true,
                      use_limit_ang_z := true }
  let ct := { ct with limit_ang_y_lower := radians phys.zAngleLimits.min,
                      limit_ang_y_upper := radians phys.zAngleLimits.max,
                      limit_ang_z_lower := radians phys.yAngleLimits.min,
                      limit_ang_z_upper := radians phys.yAngleLimits.max }
  let ct := { ct with use_spring_ang_x := true, use_spring_ang_y := true,
                      use_spring_ang_z := true }
  let ct := { ct with spring_stiffness_y := phys.angularStiffness,
                      spring_stiffness_z := phys.angularStiffness }
  { ct with object1 := pivotName, object2 := targetName }

/-- The body of the `for parent, child, _ in bone.dfs_generator()` loop
(asset.py lines 288-393) for one bone, threading the scene and the
`target_rigid_bodies` dict. -/
def processBone (radians : ℚ → ℚ) (armName : String)
    (acc : PhysScene × Dict String RBObj) (child : BoneData) :
    PhysScene × Dict String RBObj :=
  let (scene, targets) := acc
  match child.physics with
  | none => (scene, targets)
  | some phys =>
    let scene :=
      if phys.type.isCollider then
        match phys.type with
        | .SphereCollider =>
          let obj : RBObj :=
            { name := child.name ++ "_rigidbody", collision_shape := "SPHERE"
              body_type := "PASSIVE", kinematic := true
              collision_enabled := true, parent_bone := some child.name
              radius := phys.radius * SPHERE_RADIUS_FACTOR, depth := 0 }
          { scene with objects := dinsert scene.objects obj.name obj }
        | .CapsuleCollider =>
          let obj : RBObj :=
            { name := child.name ++ "_rigidbody", collision_shape := "CAPSULE"
              body_type := "PASSIVE", kinematic := true
              collision_enabled := true, parent_bone := some child.name
              radius := phys.radius * CAPSULE_RADIUS_FACTOR
              depth := phys.height * CAPSULE_HEIGHT_FACTOR }
          { scene with objects := dinsert scene.objects obj.name obj }
        | _ => scene
      else scene
    if phys.type.isBone then
      if phys.type = .SpringBone then
        let r1 := ensure_bone_rigidbody armName scene targets
          (optStr phys.pivot) true PIVOT_SIZE
        let r2 := ensure_bone_rigidbody armName r1.2.1 r1.2.2
          child.name false (phys.radius * SPRINGBONE_RADIUS_FACTOR)
        let ct := mkSpringConstraint radians phys r1.1.name r2.1.name
        let scene := r2.2.1
        let scene :=
          { scene with
            spring_joints := scene.spring_joints ++ [ct]
            pose_constraints := scene.pose_constraints ++ [(child.name, r2.1.name)] }
        (scene, r2.2.2)
      else (scene, targets)
    else (scene, targets)

/-- The pairwise no-collision loop of asset.py lines 407-410
(`for i in range(len(rbs)): for j in range(i+1, len(rbs)): set_no_collision`),
as the list of `(object1 name, object2 name)` pairs it creates, in order. -/
def set_no_collision_pairs : List RBObj → List (String × String)
  | [] => []
  | x :: xs => xs.map (fun y => (x.name, y.name)) ++ set_no_collision_pairs xs

/-- `import_armature_physics_constraints` (asset.py lines 269-410): locate
the bone named `"Position"`; when absent the traversal is skipped and
`target_rigid_bodies` stays empty, so the final `if target_rigid_bodies:`
block does nothing and the scene is returned unchanged.  Otherwise every
pre-order bone is processed and the pairwise no-collision links over the
recorded target bodies are appended. -/
def import_armature_physics_constraints (radians : ℚ → ℚ) (armName : String)
    (root : BoneTree) (scene0 : PhysScene) : PhysScene :=
  match recursive_locate_by_name root "Position" with
  | none => scene0
  | some bone =>
    let res := (dfs_generator bone).foldl (processBone radians armName) (scene0, [])
    let rbs := dvalues res.2
    { res.1 with
      nocollision_joints := res.1.nocollision_joints ++ set_no_collision_pairs rbs }

/- ------------------------------------------------------------------
   Concrete fixtures used by counterexamples and witnesses.
   ------------------------------------------------------------------ -/

def idV3 : V3 := ⟨0, 0, 0⟩
def idV4 : V4 := ⟨0, 0, 0, 1⟩
def oneV3 : V3 := ⟨1, 1, 1⟩

/-- The spec's scenario forest `Root(Position) → Hips → Spine`, the root
carrying a skinned mesh renderer so that `search_env_meshes` keeps it. -/
def c1root : Transform :=
  .mk 1 ⟨"Position", true, []⟩ idV3 idV4 oneV3
    (.cons (.mk 2 ⟨"Hips", false, []⟩ idV3 idV4 oneV3
      (.cons (.mk 3 ⟨"Spine", false, []⟩ idV3 idV4 oneV3 .nil) .nil)) .nil)

def fallbackArm : ArmatureE :=
  { name := "", bone_name_tbl := [], bone_path_hash_tbl := [], root := none,
    skinned_mesh_gameobject := none }

/-- The armature `search_env_meshes` reconstructs for `c1root`. -/
def c1arm : ArmatureE :=
  match buildArmature get_name_hash c1root with
  | .ok (arm, _) => arm
  | .error _ => fallbackArm

def c1forest : BoneForest :=
  match buildArmature get_name_hash c1root with
  | .ok (_, bf) => bf
  | .error _ => .nil

/-- A root with no skinned mesh renderer anywhere in its subtree. -/
def plainRoot : Transform :=
  .mk 10 ⟨"Stage", false, []⟩ idV3 idV4 oneV3
    (.cons (.mk 11 ⟨"Prop", false, []⟩ idV3 idV4 oneV3 .nil) .nil)

/-- Field dictionary of a spring-bone component referencing pivot path id
`pid`. -/
def springFields (pid : Int) : PhysicsFields :=
  { radius := 2, zAngleLimits := ⟨-30, 30⟩, yAngleLimits := ⟨-15, 15⟩,
    angularStiffness := 7, pivotNode := some pid }

/-- A spring-bone MonoBehaviour component referencing pivot path id `pid`. -/
def springComp (pid : Int) : ComponentData :=
  .monoBehaviour (some "SekaiSpringBone") (springFields pid)

/-- Forest whose second pre-order node references the first one as pivot. -/
def c4root : Transform :=
  .mk 1 ⟨"Position", true, []⟩ idV3 idV4 oneV3
    (.cons (.mk 2 ⟨"Tail", false, [springComp 1]⟩ idV3 idV4 oneV3 .nil) .nil)

/-- A single transform whose spring-bone component references the node's own
path id: the id is registered only after the component scan, so the lookup
must fail. -/
def c4self : Transform :=
  .mk 5 ⟨"Loner", false, [springComp 5]⟩ idV3 idV4 oneV3 .nil

/-- Components of a node that carries only an unrecognized script. -/
def unrecComps : List ComponentData :=
  [.monoBehaviour (some "SomeGameplayScript") {}, .other]

/-- Game object with a recognized sphere-collider script. -/
def c5go : GameObjectData :=
  ⟨"Collide", false, [.monoBehaviour (some "SpringSphereCollider") { radius := 3 }]⟩

/-- A node carrying only an unrecognized script-like component, with a child
carrying a recognized one. -/
def c5root : Transform :=
  .mk 1 ⟨"Position", true, unrecComps⟩ idV3 idV4 oneV3
    (.cons (.mk 2 c5go idV3 idV4 oneV3 .nil) .nil)

/-- Duplicate-name forest: the root and its child are both named `"A"`. -/
def c10root : Transform :=
  .mk 1 ⟨"A", false, []⟩ idV3 idV4 oneV3
    (.cons (.mk 2 ⟨"A", false, []⟩ ⟨5, 5, 5⟩ idV4 oneV3 .nil) .nil)

def emptyScene : PhysScene :=
  { objects := [], spring_joints := [], pose_constraints := [],
    nocollision_joints := [] }

/-- A spring-bone physics descriptor whose pivot resolved to `pivotName`. -/
def sbPhys (pivotName : String) : BonePhysics :=
  { type := .SpringBone, radius := 2, height := 0, zAngleLimits := ⟨-30, 30⟩,
    yAngleLimits := ⟨-15, 15⟩, angularStiffness := 7, pivot := some pivotName }

def sbBone (n : String) (pivotName : String) : BoneData :=
  { name := n, localPosition := idV3, localRotation := idV4,
    localScale := oneV3, global_path := "Position/" ++ n,
    physics := some (sbPhys pivotName) }

def plainBone (n : String) (path : String) : BoneData :=
  { name := n, localPosition := idV3, localRotation := idV4,
    localScale := oneV3, global_path := path, physics := none }

/-- A bone tree rooted at `"Position"` with three spring-bone children, all
referencing the root as their pivot. -/
def c7tree : BoneTree :=
  .node (plainBone "Position" "Position")
    (.cons (.node (sbBone "S1" "Position") .nil)
      (.cons (.node (sbBone "S2" "Position") .nil)
        (.cons (.node (sbBone "S3" "Position") .nil) .nil)))

/-- A bone tree with one spring-bone child. -/
def c8tree : BoneTree :=
  .node (plainBone "Position" "Position")
    (.cons (.node (sbBone "S1" "Position") .nil) .nil)

/-- A bone tree that has no bone named `"Position"` anywhere. -/
def c9tree : BoneTree :=
  .node (plainBone "Hips" "Hips")
    (.cons (.node (sbBone "S1" "Hips") .nil) .nil)

/-- A scene that already holds some state, to witness that a skipped mapping
returns it untouched. -/
def c9scene : PhysScene :=
  { objects := [("x_rigidbody",
      { name := "x_rigidbody", collision_shape := "SPHERE",
        body_type := "PASSIVE", kinematic := true, collision_enabled := true,
        parent_bone := none, radius := 1, depth := 0 })],
    spring_joints := [], pose_constraints := [("b", "t")],
    nocollision_joints := [] }

/-- The final traversal state of the `c1root` run. -/
def c1state : AState :=
  match dfsF get_name_hash initState none (.cons c1root .nil) with
  | .ok (_, st) => st
  | .error _ => initState

/-- The armature list `search_env_meshes` produces for the two-root
environment `[c1root, plainRoot]`. -/
def c3arms : List ArmatureE :=
  match search_env_meshes_armatures get_name_hash [c1root, plainRoot] with
  | .ok arms => arms
  | .error _ => []

def c5bf : BoneForest :=
  match dfsF get_name_hash initState none (.cons c5root .nil) with
  | .ok (bf, _) => bf
  | .error _ => .nil

def c5st : AState :=
  match dfsF get_name_hash initState none (.cons c5root .nil) with
  | .ok (_, st) => st
  | .error _ => initState

/-- The bone built for `c5go` (second pre-order bone of the `c5root` run). -/
def c5bone1 : BoneData :=
  match preBonesF c5bf with
  | _ :: b :: _ => b
  | _ => plainBone "x" "x"

/-- First creation of a pivot rigid body named after bone `"P"`. -/
def c6first : RBObj × PhysScene × Dict String RBObj :=
  ensure_bone_rigidbody "A" emptyScene [] "P" true 1

def c8joints : List RBConstraint :=
  (import_armature_physics_constraints (fun x => x) "A" c8tree
    emptyScene).spring_joints

def c8ct : RBConstraint :=
  match c8joints with
  | ct :: _ => ct
  | [] => defaultGenericSpring

def c10bf : BoneForest :=
  match dfsF get_name_hash initState none (.cons c10root .nil) with
  | .ok (bf, _) => bf
  | .error _ => .nil

def c10st : AState :=
  match dfsF get_name_hash initState none (.cons c10root .nil) with
  | .ok (_, st) => st
  | .error _ => initState

/- ==================================================================
   Helper lemmas.
   ================================================================== -/

theorem dlookup_dinsert {α β : Type} [DecidableEq α] (d : Dict α β)
    (k k' : α) (v : β) :
    dlookup (dinsert d k v) k' = if k = k' then some v else dlookup d k' := by
  induction d with
  | nil => simp [dinsert, dlookup]
  | cons p rest ih =>
    obtain ⟨a, b⟩ := p
    by_cases hak : a = k
    · subst hak
      by_cases h : a = k' <;> simp [dinsert, dlookup, h]
    · by_cases h : a = k'
      · subst h
        have hk : k ≠ a := fun hh => hak hh.symm
        simp [dinsert, dlookup, hak, hk]
      · simp [dinsert, dlookup, hak, h, ih]

theorem dlookup_foldl_lastVal {α β : Type} [DecidableEq α] (key : β → α) :
    ∀ (l : List β) (d : Dict α β) (k : α),
      dlookup (l.foldl (fun d b => dinsert d (key b) b) d) k
        = overwriteLookup key k l (dlookup d k) := by
  intro l
  induction l with
  | nil => intro d k; simp [overwriteLookup, lastVal]
  | cons b bs ih =>
    intro d k
    simp only [List.foldl_cons, ih, overwriteLookup, lastVal]
    cases lastVal key k bs with
    | some x => simp
    | none =>
      simp only [dlookup_dinsert]
      by_cases h : key b = k <;> simp [h]

theorem buildPhysicsAux_isSome (tbl : Dict Int BoneData) :
    ∀ (comps : List ComponentData) (acc : Option BonePhysics)
      (r : Option BonePhysics),
      buildPhysicsAux tbl acc comps = .ok r →
      r.isSome = (anyRecognized comps || acc.isSome) := by
  intro comps
  induction comps with
  | nil =>
    intro acc r h
    simp [buildPhysicsAux] at h
    subst h
    simp [anyRecognized]
  | cons c rest ih =>
    intro acc r h
    match c with
    | .other =>
      simp only [buildPhysicsAux] at h
      simp [anyRecognized, ComponentData.isRecognized, ih _ _ h, List.any_cons]
    | .monoBehaviour none fields =>
      simp only [buildPhysicsAux] at h
      simp [anyRecognized, ComponentData.isRecognized, ih _ _ h, List.any_cons]
    | .monoBehaviour (some sname) fields =>
      simp only [buildPhysicsAux] at h
      cases hc : classifyScript sname with
      | none =>
        rw [hc] at h
        simp [anyRecognized, ComponentData.isRecognized, hc, ih _ _ h,
          List.any_cons]
      | some ty =>
        rw [hc] at h
        dsimp only at h
        cases hp : fields.pivotNode with
        | none =>
          rw [hp] at h
          dsimp only at h
          simp [anyRecognized, ComponentData.isRecognized, hc, ih _ _ h,
            List.any_cons]
        | some pid =>
          rw [hp] at h
          dsimp only at h
          cases hd : dlookup tbl pid with
          | none => rw [hd] at h; dsimp only at h; cases h
          | some bb =>
            rw [hd] at h
            dsimp only at h
            simp [anyRecognized, ComponentData.isRecognized, hc, ih _ _ h,
              List.any_cons]

theorem buildPhysicsAux_no_recognized (tbl : Dict Int BoneData) :
    ∀ (comps : List ComponentData) (acc : Option BonePhysics),
      anyRecognized comps = false →
      buildPhysicsAux tbl acc comps = .ok acc := by
  intro comps
  induction comps with
  | nil => intro acc _; rfl
  | cons c rest ih =>
    intro acc h
    simp only [anyRecognized, List.any_cons, Bool.or_eq_false_iff] at h
    obtain ⟨h1, h2⟩ := h
    match c with
    | .other => exact ih acc h2
    | .monoBehaviour none fields => exact ih acc h2
    | .monoBehaviour (some sname) fields =>
      simp only [ComponentData.isRecognized] at h1
      cases hcl : classifyScript sname with
      | some ty => rw [hcl] at h1; cases h1
      | none =>
        simp only [buildPhysicsAux, hcl]
        exact ih acc h2

theorem buildPhysicsAux_pivot_missing (tbl : Dict Int BoneData) :
    ∀ (comps : List ComponentData) (acc : Option BonePhysics)
      (s : String) (fields : PhysicsFields) (pid : Int),
      (ComponentData.monoBehaviour (some s) fields) ∈ comps →
      (classifyScript s).isSome = true →
      fields.pivotNode = some pid →
      dlookup tbl pid = none →
      ∃ e, buildPhysicsAux tbl acc comps = .error e := by
  intro comps
  induction comps with
  | nil => intro acc s fields pid hmem; cases hmem
  | cons c rest ih =>
    intro acc s fields pid hmem hrec hpiv hmiss
    rcases List.mem_cons.mp hmem with hc | hc
    · subst hc
      obtain ⟨ty, hty⟩ := Option.isSome_iff_exists.mp hrec
      simp only [buildPhysicsAux, hty, hpiv, hmiss]
      exact ⟨_, rfl⟩
    · match c with
      | .other => exact ih acc s fields pid hc hrec hpiv hmiss
      | .monoBehaviour none f => exact ih acc s fields pid hc hrec hpiv hmiss
      | .monoBehaviour (some sn) f =>
        simp only [buildPhysicsAux]
        cases hcl : classifyScript sn with
        | none =>
          dsimp only
          exact ih acc s fields pid hc hrec hpiv hmiss
        | some ty =>
          dsimp only
          cases hp : f.pivotNode with
          | none =>
            dsimp only
            exact ih _ s fields pid hc hrec hpiv hmiss
          | some pid' =>
            dsimp only
            cases hd : dlookup tbl pid' with
            | none => dsimp only; exact ⟨_, rfl⟩
            | some bb =>
              dsimp only
              exact ih _ s fields pid hc hrec hpiv hmiss

@[simp] theorem stepSkinned_path_id_tbl (go : GameObjectData) (st : AState) :
    (stepSkinned go st).path_id_tbl = st.path_id_tbl := by
  unfold stepSkinned; split <;> rfl

@[simp] theorem stepSkinned_bone_name_tbl (go : GameObjectData) (st : AState) :
    (stepSkinned go st).bone_name_tbl = st.bone_name_tbl := by
  unfold stepSkinned; split <;> rfl

@[simp] theorem stepSkinned_bone_path_hash_tbl (go : GameObjectData)
    (st : AState) :
    (stepSkinned go st).bone_path_hash_tbl = st.bone_path_hash_tbl := by
  unfold stepSkinned; split <;> rfl

@[simp] theorem stepSkinned_root (go : GameObjectData) (st : AState) :
    (stepSkinned go st).root = st.root := by
  unfold stepSkinned; split <;> rfl

@[simp] theorem stepSkinned_skinned_isSome (go : GameObjectData) (st : AState) :
    (stepSkinned go st).skinned_mesh_gameobject.isSome
      = (go.m_SkinnedMeshRenderer || st.skinned_mesh_gameobject.isSome) := by
  unfold stepSkinned
  cases h : go.m_SkinnedMeshRenderer <;> simp [h]

@[simp] theorem registerBone_path_id_tbl (hash : String → Nat) (st : AState)
    (pid : Int) (bone : BoneData) :
    (registerBone hash st pid bone).path_id_tbl
      = dinsert st.path_id_tbl pid bone := rfl

@[simp] theorem registerBone_bone_name_tbl (hash : String → Nat) (st : AState)
    (pid : Int) (bone : BoneData) :
    (registerBone hash st pid bone).bone_name_tbl
      = dinsert st.bone_name_tbl bone.name bone := rfl

@[simp] theorem registerBone_bone_path_hash_tbl (hash : String → Nat)
    (st : AState) (pid : Int) (bone : BoneData) :
    (registerBone hash st pid bone).bone_path_hash_tbl
      = dinsert st.bone_path_hash_tbl (hash bone.global_path) bone := rfl

@[simp] theorem registerBone_root (hash : String → Nat) (st : AState)
    (pid : Int) (bone : BoneData) :
    (registerBone hash st pid bone).root = st.root := rfl

@[simp] theorem registerBone_skinned (hash : String → Nat) (st : AState)
    (pid : Int) (bone : BoneData) :
    (registerBone hash st pid bone).skinned_mesh_gameobject
      = st.skinned_mesh_gameobject := rfl

@[simp] theorem setRoot_path_id_tbl (pp : Option String) (bone : BoneData)
    (st : AState) : (setRoot pp bone st).path_id_tbl = st.path_id_tbl := by
  cases pp <;> rfl

@[simp] theorem setRoot_bone_name_tbl (pp : Option String) (bone : BoneData)
    (st : AState) : (setRoot pp bone st).bone_name_tbl = st.bone_name_tbl := by
  cases pp <;> rfl

@[simp] theorem setRoot_bone_path_hash_tbl (pp : Option String)
    (bone : BoneData) (st : AState) :
    (setRoot pp bone st).bone_path_hash_tbl = st.bone_path_hash_tbl := by
  cases pp <;> rfl

@[simp] theorem setRoot_skinned (pp : Option String) (bone : BoneData)
    (st : AState) :
    (setRoot pp bone st).skinned_mesh_gameobject
      = st.skinned_mesh_gameobject := by
  cases pp <;> rfl

theorem setRoot_root (pp : Option String) (bone : BoneData) (st : AState) :
    (setRoot pp bone st).root
      = (match pp with | none => some bone | some _ => st.root) := by
  cases pp <;> rfl

theorem preBonesF_length : ∀ (bf : BoneForest),
    (preBonesF bf).length = sizePF (shapeBF bf)
  | .nil => rfl
  | .cons (.node b subs) rest => by
    simp [preBonesF, shapeBF, sizePF, List.length_append,
      preBonesF_length subs, preBonesF_length rest]
    omega

theorem preIdsF_length : ∀ (f : TransformForest),
    (preIdsF f).length = sizePF (shapeTF f)
  | .nil => rfl
  | .cons (.mk pid go lp lr ls cs) ts => by
    simp [preIdsF, shapeTF, sizePF, List.length_append,
      preIdsF_length cs, preIdsF_length ts]
    omega

theorem preGOsF_length : ∀ (f : TransformForest),
    (preGOsF f).length = sizePF (shapeTF f)
  | .nil => rfl
  | .cons (.mk pid go lp lr ls cs) ts => by
    simp [preGOsF, shapeTF, sizePF, List.length_append,
      preGOsF_length cs, preGOsF_length ts]
    omega

/-- Central characterization of one `dfs` run: the produced bone forest has
the shape of the input transform forest, the three tables are exactly the
initial tables extended by one insertion per pre-order bone (keyed by
transform path id, bone name and path hash respectively), the armature root
is the last parentless bone, and a skinned game object is recorded iff one
occurs in the forest (or was recorded before). -/
theorem dfsF_char (hash : String → Nat) :
    ∀ (f : TransformForest) (st : AState) (pp : Option String)
      (bf : BoneForest) (st' : AState),
      dfsF hash st pp f = .ok (bf, st') →
      shapeBF bf = shapeTF f ∧
      st'.path_id_tbl
        = ((preIdsF f).zip (preBonesF bf)).foldl
            (fun d kb => dinsert d kb.1 kb.2) st.path_id_tbl ∧
      st'.bone_name_tbl
        = (preBonesF bf).foldl (fun d b => dinsert d b.name b)
            st.bone_name_tbl ∧
      st'.bone_path_hash_tbl
        = (preBonesF bf).foldl (fun d b => dinsert d (hash b.global_path) b)
            st.bone_path_hash_tbl ∧
      st'.root = (match pp, lastTop bf with
        | some _, _ => st.root
        | none, none => st.root
        | none, some b => some b) ∧
      st'.skinned_mesh_gameobject.isSome
        = (anySkinnedF f || st.skinned_mesh_gameobject.isSome)
  | .nil, st, pp, bf, st', h => by
    simp only [dfsF, Except.ok.injEq, Prod.mk.injEq] at h
    obtain ⟨h1, h2⟩ := h
    subst h1
    subst h2
    refine ⟨rfl, rfl, rfl, rfl, ?_, ?_⟩
    · cases pp <;> rfl
    · simp [anySkinnedF]
  | .cons (.mk pid go lp lr ls cs) ts, st, pp, bf, st', h => by
    simp only [dfsF] at h
    split at h
    · exact Except.noConfusion h
    · rename_i phys hbp
      split at h
      · exact Except.noConfusion h
      · rename_i subs st4 hcs
        split at h
        · exact Except.noConfusion h
        · rename_i rest st5 hts
          simp only [Except.ok.injEq, Prod.mk.injEq] at h
          obtain ⟨h1, h2⟩ := h
          subst h1
          subst h2
          obtain ⟨ihshape1, ihpid1, ihname1, ihhash1, ihroot1, ihsk1⟩ :=
            dfsF_char hash cs _ _ _ _ hcs
          obtain ⟨ihshape2, ihpid2, ihname2, ihhash2, ihroot2, ihsk2⟩ :=
            dfsF_char hash ts _ _ _ _ hts
          have hlen : (preIdsF cs).length = (preBonesF subs).length := by
            rw [preIdsF_length, preBonesF_length, ihshape1]
          refine ⟨?_, ?_, ?_, ?_, ?_, ?_⟩
          · simp [shapeBF, shapeTF, ihshape1, ihshape2]
          · rw [ihpid2, ihpid1]
            simp only [preIdsF, preBonesF, List.zip_cons_cons,
              List.zip_append hlen, List.foldl_cons, List.foldl_append,
              setRoot_path_id_tbl, registerBone_path_id_tbl,
              stepSkinned_path_id_tbl]
          · rw [ihname2, ihname1]
            simp only [preBonesF, List.foldl_cons, List.foldl_append,
              setRoot_bone_name_tbl, registerBone_bone_name_tbl,
              stepSkinned_bone_name_tbl]
          · rw [ihhash2, ihhash1]
            simp only [preBonesF, List.foldl_cons, List.foldl_append,
              setRoot_bone_path_hash_tbl, registerBone_bone_path_hash_tbl,
              stepSkinned_bone_path_hash_tbl]
          · rw [ihroot2]
            cases pp with
            | none =>
              dsimp only [lastTop]
              cases hlt : lastTop rest with
              | none =>
                dsimp only
                rw [ihroot1]
                dsimp only
                rw [setRoot_root]
              | some x => dsimp only
            | some p =>
              dsimp only
              rw [ihroot1]
              dsimp only
              simp [setRoot_root]
          · rw [ihsk2, ihsk1]
            simp only [setRoot_skinned, registerBone_skinned,
              stepSkinned_skinned_isSome, anySkinnedF]
            cases go.m_SkinnedMeshRenderer <;>
              cases anySkinnedF cs <;>
              cases anySkinnedF ts <;>
              cases st.skinned_mesh_gameobject.isSome <;> rfl

theorem childPath_eq_pathOfParent (pp : Option String) (n : String) :
    childPath pp n = pathOfParent pp n := by
  cases pp with
  | none => rfl
  | some p =>
    by_cases h : p = "" <;> simp [childPath, pathOfParent, h]

/-- Every bone forest a `dfs` run produces satisfies the path rule. -/
theorem dfsF_paths (hash : String → Nat) :
    ∀ (f : TransformForest) (st : AState) (pp : Option String)
      (bf : BoneForest) (st' : AState),
      dfsF hash st pp f = .ok (bf, st') →
      pathsOkF pp bf = true
  | .nil, st, pp, bf, st', h => by
    simp only [dfsF, Except.ok.injEq, Prod.mk.injEq] at h
    obtain ⟨h1, h2⟩ := h
    subst h1
    rfl
  | .cons (.mk pid go lp lr ls cs) ts, st, pp, bf, st', h => by
    simp only [dfsF] at h
    split at h
    · exact Except.noConfusion h
    · rename_i phys hbp
      split at h
      · exact Except.noConfusion h
      · rename_i subs st4 hcs
        split at h
        · exact Except.noConfusion h
        · rename_i rest st5 hts
          simp only [Except.ok.injEq, Prod.mk.injEq] at h
          obtain ⟨h1, h2⟩ := h
          subst h1
          have ih1 := dfsF_paths hash cs _ _ _ _ hcs
          have ih2 := dfsF_paths hash ts _ _ _ _ hts
          simp only [pathsOkF, Bool.and_eq_true]
          refine ⟨⟨?_, ?_⟩, ih2⟩
          · simp [childPath_eq_pathOfParent]
          · exact ih1

/-- Every produced bone's name matches its game object's and its physics
descriptor is present iff the game object carries a recognized physics
script. -/
theorem dfsF_physics (hash : String → Nat) :
    ∀ (f : TransformForest) (st : AState) (pp : Option String)
      (bf : BoneForest) (st' : AState),
      dfsF hash st pp f = .ok (bf, st') →
      ∀ go b, (go, b) ∈ (preGOsF f).zip (preBonesF bf) →
        b.name = go.m_Name ∧
        b.physics.isSome = anyRecognized go.m_Components
  | .nil, st, pp, bf, st', h => by
    simp only [dfsF, Except.ok.injEq, Prod.mk.injEq] at h
    obtain ⟨h1, h2⟩ := h
    subst h1
    intro go b hmem
    simp [preGOsF, preBonesF] at hmem
  | .cons (.mk pid go0 lp lr ls cs) ts, st, pp, bf, st', h => by
    simp only [dfsF] at h
    split at h
    · exact Except.noConfusion h
    · rename_i phys hbp
      split at h
      · exact Except.noConfusion h
      · rename_i subs st4 hcs
        split at h
        · exact Except.noConfusion h
        · rename_i rest st5 hts
          simp only [Except.ok.injEq, Prod.mk.injEq] at h
          obtain ⟨h1, h2⟩ := h
          subst h1
          have hlen : (preGOsF cs).length = (preBonesF subs).length := by
            rw [preGOsF_length, preBonesF_length,
              (dfsF_char hash cs _ _ _ _ hcs).1]
          intro go b hmem
          simp only [preGOsF, preBonesF, List.zip_cons_cons,
            List.zip_append hlen, List.mem_cons, List.mem_append] at hmem
          rcases hmem with hmem | hmem | hmem
          · obtain ⟨hgo, hb⟩ := Prod.mk.injEq .. ▸ hmem
            subst hgo
            subst hb
            refine ⟨rfl, ?_⟩
            have := buildPhysicsAux_isSome _ _ _ _ hbp
            simpa using this
          · exact dfsF_physics hash cs _ _ _ _ hcs go b hmem
          · exact dfsF_physics hash ts _ _ _ _ hts go b hmem

/-- Inversion of a successful `dfs` step at a node: the head bone is built
from the node's own data, with the physics descriptor obtained by scanning
the node's components against the table as it was BEFORE the node itself
was registered. -/
theorem dfsF_cons_ok_head (hash : String → Nat) (st : AState)
    (pp : Option String) (pid : Int) (go : GameObjectData) (lp : V3) (lr : V4)
    (ls : V3) (cs ts : TransformForest) (bf : BoneForest) (st' : AState)
    (h : dfsF hash st pp (.cons (.mk pid go lp lr ls cs) ts) = .ok (bf, st')) :
    ∃ phys subs rest,
      buildPhysics st.path_id_tbl go.m_Components = .ok phys ∧
      bf = .cons (.node
        { name := go.m_Name, localPosition := lp, localRotation := lr,
          localScale := ls, global_path := childPath pp go.m_Name,
          physics := phys } subs) rest := by
  simp only [dfsF] at h
  split at h
  · exact Except.noConfusion h
  · rename_i phys hbp
    split at h
    · exact Except.noConfusion h
    · rename_i subs st4 hcs
      split at h
      · exact Except.noConfusion h
      · rename_i rest st5 hts
        simp only [Except.ok.injEq, Prod.mk.injEq] at h
        obtain ⟨h1, h2⟩ := h
        subst h1
        rw [stepSkinned_path_id_tbl] at hbp
        exact ⟨phys, subs, rest, hbp, rfl⟩

/-- When the component scan of the head node raises, the whole `dfs` run
raises with it. -/
theorem dfsF_cons_err (hash : String → Nat) (st : AState) (pp : Option String)
    (pid : Int) (go : GameObjectData) (lp : V3) (lr : V4) (ls : V3)
    (cs ts : TransformForest) (e : String)
    (h : buildPhysics st.path_id_tbl go.m_Components = .error e) :
    dfsF hash st pp (.cons (.mk pid go lp lr ls cs) ts) = .error e := by
  have h' : buildPhysics (stepSkinned go st).path_id_tbl go.m_Components
      = .error e := by
    rw [stepSkinned_path_id_tbl]
    exact h
  simp only [dfsF, h']

theorem buildPhysicsAux_append_unrec (tbl : Dict Int BoneData) :
    ∀ (pre rest : List ComponentData) (acc : Option BonePhysics),
      anyRecognized pre = false →
      buildPhysicsAux tbl acc (pre ++ rest) = buildPhysicsAux tbl acc rest := by
  intro pre
  induction pre with
  | nil => intro rest acc _; rfl
  | cons c cspre ih =>
    intro rest acc h
    simp only [anyRecognized, List.any_cons, Bool.or_eq_false_iff] at h
    obtain ⟨h1, h2⟩ := h
    match c with
    | .other => simpa using ih rest acc h2
    | .monoBehaviour none fields => simpa using ih rest acc h2
    | .monoBehaviour (some sname) fields =>
      simp only [ComponentData.isRecognized] at h1
      cases hcl : classifyScript sname with
      | some ty => rw [hcl] at h1; cases h1
      | none =>
        simp only [List.cons_append, buildPhysicsAux, hcl]
        exact ih rest acc h2

theorem buildArmature_inv (hash : String → Nat) (r : Transform)
    (arm : ArmatureE) (bf : BoneForest)
    (h : buildArmature hash r = .ok (arm, bf)) :
    ∃ st', dfsF hash initState none (.cons r .nil) = .ok (bf, st') ∧
      arm.name = r.gameObject.m_Name ∧
      arm.bone_name_tbl = st'.bone_name_tbl ∧
      arm.bone_path_hash_tbl = st'.bone_path_hash_tbl ∧
      arm.root = st'.root ∧
      arm.skinned_mesh_gameobject = st'.skinned_mesh_gameobject := by
  unfold buildArmature at h
  split at h
  · exact Except.noConfusion h
  · rename_i bf0 st0 heq
    simp only [Except.ok.injEq, Prod.mk.injEq] at h
    obtain ⟨h1, h2⟩ := h
    subst h1
    subst h2
    exact ⟨st0, heq, rfl, rfl, rfl, rfl, rfl⟩

@[simp] theorem ensure_spring_joints (armName : String) (scene : PhysScene)
    (targets : Dict String RBObj) (bn : String) (p : Bool) (r : ℚ) :
    ((ensure_bone_rigidbody armName scene targets bn p r).2.1).spring_joints
      = scene.spring_joints := by
  simp only [ensure_bone_rigidbody]
  cases dlookup scene.objects (get_rb_name armName bn p) <;> rfl

@[simp] theorem ensure_pose_constraints (armName : String) (scene : PhysScene)
    (targets : Dict String RBObj) (bn : String) (p : Bool) (r : ℚ) :
    ((ensure_bone_rigidbody armName scene targets bn p r).2.1).pose_constraints
      = scene.pose_constraints := by
  simp only [ensure_bone_rigidbody]
  cases dlookup scene.objects (get_rb_name armName bn p) <;> rfl

@[simp] theorem ensure_nocollision (armName : String) (scene : PhysScene)
    (targets : Dict String RBObj) (bn : String) (p : Bool) (r : ℚ) :
    ((ensure_bone_rigidbody armName scene targets bn p r).2.1).nocollision_joints
      = scene.nocollision_joints := by
  simp only [ensure_bone_rigidbody]
  cases dlookup scene.objects (get_rb_name armName bn p) <;> rfl

/-- One `processBone` step only ever appends spring constraints built by
`mkSpringConstraint` from a spring-bone descriptor of the processed bone. -/
theorem processBone_joints (radians : ℚ → ℚ) (armName : String)
    (acc : PhysScene × Dict String RBObj) (b : BoneData) (ct : RBConstraint)
    (h : ct ∈ ((processBone radians armName acc b).1).spring_joints) :
    ct ∈ acc.1.spring_joints ∨
    ∃ phys p t, b.physics = some phys ∧ phys.type = .SpringBone ∧
      ct = mkSpringConstraint radians phys p t := by
  obtain ⟨scene, targets⟩ := acc
  unfold processBone at h
  cases hph : b.physics with
  | none =>
    rw [hph] at h
    exact Or.inl h
  | some phys =>
    rw [hph] at h
    dsimp only at h
    cases hty : phys.type with
    | NoPhysics =>
      rw [hty] at h
      simp [BonePhysicsType.isCollider, BonePhysicsType.isBone] at h
      exact Or.inl h
    | SphereCollider =>
      rw [hty] at h
      simp [BonePhysicsType.isCollider, BonePhysicsType.isBone] at h
      exact Or.inl h
    | CapsuleCollider =>
      rw [hty] at h
      simp [BonePhysicsType.isCollider, BonePhysicsType.isBone] at h
      exact Or.inl h
    | SpringManager =>
      rw [hty] at h
      simp [BonePhysicsType.isCollider, BonePhysicsType.isBone] at h
      exact Or.inl h
    | SpringBone =>
      rw [hty] at h
      simp only [BonePhysicsType.isCollider, BonePhysicsType.isBone,
        Bool.false_eq_true, if_false, if_true, reduceIte] at h
      simp only [ensure_spring_joints, List.mem_append,
        List.mem_singleton] at h
      rcases h with h | h
      · exact Or.inl h
      · exact Or.inr ⟨phys, _, _, rfl, hty, h⟩

theorem foldl_processBone_joints (radians : ℚ → ℚ) (armName : String) :
    ∀ (l : List BoneData) (acc : PhysScene × Dict String RBObj)
      (ct : RBConstraint),
      ct ∈ ((l.foldl (processBone radians armName) acc).1).spring_joints →
      ct ∈ acc.1.spring_joints ∨
      ∃ b phys p t, b ∈ l ∧ b.physics = some phys ∧
        phys.type = .SpringBone ∧ ct = mkSpringConstraint radians phys p t := by
  intro l
  induction l with
  | nil => intro acc ct h; exact Or.inl h
  | cons b bs ih =>
    intro acc ct h
    rw [List.foldl_cons] at h
    rcases ih _ ct h with hacc | ⟨b', phys, p, t, hb', hphys, hty, hct⟩
    · rcases processBone_joints radians armName acc b ct hacc with h1 | h1
      · exact Or.inl h1
      · obtain ⟨phys, p, t, hphys, hty, hct⟩ := h1
        exact Or.inr ⟨b, phys, p, t, List.mem_cons_self b bs, hphys, hty, hct⟩
    · exact Or.inr ⟨b', phys, p, t, List.mem_cons_of_mem b hb', hphys, hty, hct⟩

theorem set_no_collision_pairs_length_choose :
    ∀ (rbs : List RBObj),
      (set_no_collision_pairs rbs).length = Nat.choose rbs.length 2
  | [] => rfl
  | x :: xs => by
    have ih := set_no_collision_pairs_length_choose xs
    simp only [set_no_collision_pairs, List.length_append, List.length_map,
      ih, List.length_cons]
    have : xs.length + 1 = Nat.succ xs.length := rfl
    rw [this, Nat.choose_succ_succ, Nat.choose_one_right]

/-- After any `ensure_bone_rigidbody` call the deterministic key maps to
the returned body. -/
theorem ensure_creates_key (armName : String) (scene : PhysScene)
    (targets : Dict String RBObj) (bn : String) (p : Bool) (r : ℚ) :
    dlookup ((ensure_bone_rigidbody armName scene targets bn p r).2.1).objects
        (get_rb_name armName bn p)
      = some ((ensure_bone_rigidbody armName scene targets bn p r).1) := by
  cases hd : dlookup scene.objects (get_rb_name armName bn p) with
  | some o => simp [ensure_bone_rigidbody, hd]
  | none =>
    simp only [ensure_bone_rigidbody, hd]
    rw [dlookup_dinsert]
    simp

/- ==================================================================
   Claim theorems.
   ================================================================== -/

/-- C1 (counterexample): on the spec's own scenario forest
`Root(Position) → Hips → Spine`, the reconstruction succeeds but the root
bone's `path_from_root` is the empty string, NOT the root's name
`"Position"`, and `bone_path_hash_tbl` (which does have exactly 3 keys) has
no key `hash("Position")` and no key `hash("Position/Hips")` — refuting both
the claimed path equation and the claimed key set. -/
theorem c1_path_counterexample :
    (buildArmature get_name_hash c1root).isOk = true ∧
    c1arm.root.map (fun b => b.global_path) = some "" ∧
    "" ≠ "Position" ∧
    c1arm.bone_path_hash_tbl.length = 3 ∧
    dlookup c1arm.bone_path_hash_tbl (get_name_hash "Position") = none ∧
    dlookup c1arm.bone_path_hash_tbl (get_name_hash "Position/Hips") = none := by
  refine ⟨by decide, by decide, by decide, by decide, by decide, by decide⟩

/-- C1 (amended): in every armature reconstructed by `search_env_meshes`,
the root bone's `path_from_root` is the EMPTY string; a non-root bone whose
parent has the empty path gets its own name as path; every other non-root
bone gets its parent's path joined to its name with `"/"`.  Consequently,
for the forest `Root(Position) → Hips → Spine`, `bone_path_hash_tbl` has
exactly the three keys `hash("")`, `hash("Hips")`, `hash("Hips/Spine")`. -/
theorem c1_path_amended :
    (∀ (hash : String → Nat) (f : TransformForest) (st : AState)
       (pp : Option String) (bf : BoneForest) (st' : AState),
       dfsF hash st pp f = .ok (bf, st') → pathsOkF pp bf = true) ∧
    c1arm.bone_path_hash_tbl.map Prod.fst
      = [get_name_hash "", get_name_hash "Hips", get_name_hash "Hips/Spine"] ∧
    c1arm.bone_name_tbl.length = 3 ∧
    c1arm.root.map (fun b => b.global_path) = some "" := by
  exact ⟨fun hash f st pp bf st' h => dfsF_paths hash f st pp bf st' h,
    by decide, by decide, by decide⟩

/-- C1 witness: the amended path rule evaluated on the scenario forest. -/
theorem c1_path_amended_witness : pathsOkF none c1forest = true := by
  exact c1_path_amended.1 get_name_hash (.cons c1root .nil) initState none
    c1forest c1state (by rfl)

/-- C2: a successful reconstruction of one root transform yields a forest
with exactly one top-level tree, whose top bone (the only parentless bone)
is stored in `armature.root`; the bone parent/child links form a tree of
exactly the shape of the input transform tree (and hence are acyclic, with
every non-root bone owned by exactly one parent's child list), with one
bone per transform node. -/
theorem c2_unique_root_tree (hash : String → Nat) (r : Transform)
    (arm : ArmatureE) (bf : BoneForest)
    (h : buildArmature hash r = .ok (arm, bf)) :
    ∃ b subs, bf = .cons (.node b subs) .nil ∧ arm.root = some b ∧
      shapeBF bf = shapeTF (.cons r .nil) ∧
      (preBonesF bf).length = (preIdsF (.cons r .nil)).length := by
  obtain ⟨st', hdfs, _, _, _, hroot, _⟩ := buildArmature_inv hash r arm bf h
  obtain ⟨hshape, _, _, _, hrootc, _⟩ := dfsF_char hash _ _ _ _ _ hdfs
  cases r with
  | mk pid go lp lr ls cs =>
    cases bf with
    | nil => simp [shapeBF, shapeTF] at hshape
    | cons t rest =>
      cases t with
      | node b subs =>
        cases rest with
        | cons t2 r2 =>
          cases t2 with
          | node b2 subs2 => simp [shapeBF, shapeTF] at hshape
        | nil =>
          refine ⟨b, subs, rfl, ?_, hshape, ?_⟩
          · rw [hroot, hrootc]
            rfl
          · rw [preBonesF_length, preIdsF_length, hshape]

/-- C2 witness: the scenario forest has a unique root stored in the
armature and a shape-preserved bone tree. -/
theorem c2_unique_root_tree_witness :
    ∃ b subs, c1forest = .cons (.node b subs) .nil ∧ c1arm.root = some b ∧
      shapeBF c1forest = shapeTF (.cons c1root .nil) ∧
      (preBonesF c1forest).length = (preIdsF (.cons c1root .nil)).length :=
  c2_unique_root_tree get_name_hash c1root c1arm c1forest (by rfl)

/-- C3: `search_env_meshes` keeps exactly the armatures of those root
transforms whose subtree contains a skinned-mesh-bearing game object, in
order — roots with no skinned descendant are dropped. -/
theorem c3_skinned_filter (hash : String → Nat) :
    ∀ (roots : List Transform) (arms : List ArmatureE),
      search_env_meshes_armatures hash roots = .ok arms →
      arms.map (fun a => a.name)
        = (roots.filter (fun r => r.anySkinned)).map
            (fun r => r.gameObject.m_Name) := by
  intro roots
  induction roots with
  | nil =>
    intro arms h
    simp only [search_env_meshes_armatures, Except.ok.injEq] at h
    subst h
    rfl
  | cons r rs ih =>
    intro arms h
    simp only [search_env_meshes_armatures] at h
    split at h
    · exact Except.noConfusion h
    · rename_i arm bf hba
      split at h
      · exact Except.noConfusion h
      · rename_i arms' hrs
        simp only [Except.ok.injEq] at h
        subst h
        obtain ⟨st', hdfs, hname, _, _, _, hsk⟩ :=
          buildArmature_inv hash r arm bf hba
        have hchar := (dfsF_char hash _ _ _ _ _ hdfs).2.2.2.2.2
        have hskin : arm.skinned_mesh_gameobject.isSome = r.anySkinned := by
          rw [hsk, hchar]
          simp [initState, Transform.anySkinned]
        cases hand : r.anySkinned with
        | true =>
          simp [hskin, hand, List.filter_cons, hname, ih _ hrs]
        | false =>
          simp [hskin, hand, List.filter_cons, ih _ hrs]

/-- C3 witness: of the two roots only the skinned one yields an armature. -/
theorem c3_skinned_filter_witness :
    c3arms.map (fun a => a.name)
      = ([c1root, plainRoot].filter (fun r => r.anySkinned)).map
          (fun r => r.gameObject.m_Name) ∧
    c3arms.map (fun a => a.name) = ["Position"] :=
  ⟨c3_skinned_filter get_name_hash [c1root, plainRoot] c3arms (by rfl),
   by decide⟩

/-- C4: pivot references resolve through the traversal-local id table only.
(1) A recognized physics component whose `pivotNode` id is already in the
table produces a descriptor whose `pivot` is the registered bone's name;
(2) if the id is not in the table the scan raises instead of producing a
descriptor; (3) a node's own scan runs against the table as it was BEFORE
the node registered itself (so a self-reference also fails); (4) the table
is exactly the pre-order sequence of registrations, so "in the table" means
"visited strictly earlier in pre-order". -/
theorem c4_pivot_document_order :
    (∀ (tbl : Dict Int BoneData) (pre post : List ComponentData) (s : String)
       (fields : PhysicsFields) (ty : BonePhysicsType) (pid : Int)
       (b : BoneData),
       anyRecognized pre = false → anyRecognized post = false →
       classifyScript s = some ty → fields.pivotNode = some pid →
       dlookup tbl pid = some b →
       buildPhysics tbl
           (pre ++ ComponentData.monoBehaviour (some s) fields :: post)
         = .ok (some { BonePhysics.from_dict fields with
                       type := ty, pivot := some b.name })) ∧
    (∀ (tbl : Dict Int BoneData) (comps : List ComponentData) (s : String)
       (fields : PhysicsFields) (pid : Int),
       ComponentData.monoBehaviour (some s) fields ∈ comps →
       (classifyScript s).isSome = true →
       fields.pivotNode = some pid →
       dlookup tbl pid = none →
       ∃ e, buildPhysics tbl comps = .error e) ∧
    (∀ (hash : String → Nat) (st : AState) (pp : Option String) (pid : Int)
       (go : GameObjectData) (lp : V3) (lr : V4) (ls : V3)
       (cs ts : TransformForest) (bf : BoneForest) (st' : AState),
       dfsF hash st pp (.cons (.mk pid go lp lr ls cs) ts) = .ok (bf, st') →
       ∃ phys subs rest,
         buildPhysics st.path_id_tbl go.m_Components = .ok phys ∧
         bf = .cons (.node
           { name := go.m_Name, localPosition := lp, localRotation := lr,
             localScale := ls, global_path := childPath pp go.m_Name,
             physics := phys } subs) rest) ∧
    (∀ (hash : String → Nat) (f : TransformForest) (st : AState)
       (pp : Option String) (bf : BoneForest) (st' : AState),
       dfsF hash st pp f = .ok (bf, st') →
       st'.path_id_tbl
         = ((preIdsF f).zip (preBonesF bf)).foldl
             (fun d kb => dinsert d kb.1 kb.2) st.path_id_tbl) := by
  refine ⟨?_, ?_, ?_, ?_⟩
  · intro tbl pre post s fields ty pid b hpre hpost hcl hpiv hlook
    unfold buildPhysics
    rw [buildPhysicsAux_append_unrec tbl pre _ none hpre]
    simp only [buildPhysicsAux]
    rw [hcl]
    dsimp only
    rw [hpiv]
    dsimp only
    rw [hlook]
    dsimp only
    exact buildPhysicsAux_no_recognized tbl post _ hpost
  · intro tbl comps s fields pid hmem hrec hpiv hmiss
    exact buildPhysicsAux_pivot_missing tbl comps none s fields pid hmem hrec
      hpiv hmiss
  · intro hash st pp pid go lp lr ls cs ts bf st' h
    exact dfsF_cons_ok_head hash st pp pid go lp lr ls cs ts bf st' h
  · intro hash f st pp bf st' h
    exact (dfsF_char hash f st pp bf st' h).2.1

/-- C4 witness: a pivot registered earlier resolves to its name; an
unregistered (self-referencing) pivot id raises. -/
theorem c4_pivot_document_order_witness :
    buildPhysics [((1 : Int), plainBone "Position" "")] [springComp 1]
      = .ok (some { BonePhysics.from_dict (springFields 1) with
                    type := .SpringBone, pivot := some "Position" }) ∧
    (∃ e, buildPhysics [] [springComp 5] = .error e) :=
  ⟨c4_pivot_document_order.1 [((1 : Int), plainBone "Position" "")] [] []
      "SekaiSpringBone" (springFields 1) .SpringBone 1
      (plainBone "Position" "") (by decide) (by decide) (by decide)
      (by decide) (by decide),
   c4_pivot_document_order.2.1 [] [springComp 5] "SekaiSpringBone"
      (springFields 5) 5 (by decide) (by decide) (by decide) (by decide)⟩

/-- C5: a bone carries a physics descriptor iff its game object has a
MonoBehaviour whose script name is one of the four recognized identifiers;
components with any other script name contribute nothing and raise no
error. -/
theorem c5_recognized_scripts :
    (∀ (tbl : Dict Int BoneData) (comps : List ComponentData),
       anyRecognized comps = false → buildPhysics tbl comps = .ok none) ∧
    (∀ (tbl : Dict Int BoneData) (comps : List ComponentData)
       (r : Option BonePhysics),
       buildPhysics tbl comps = .ok r → r.isSome = anyRecognized comps) ∧
    (∀ (hash : String → Nat) (f : TransformForest) (st : AState)
       (pp : Option String) (bf : BoneForest) (st' : AState),
       dfsF hash st pp f = .ok (bf, st') →
       ∀ go b, (go, b) ∈ (preGOsF f).zip (preBonesF bf) →
         b.physics.isSome = anyRecognized go.m_Components) := by
  refine ⟨?_, ?_, ?_⟩
  · intro tbl comps h
    exact buildPhysicsAux_no_recognized tbl comps none h
  · intro tbl comps r h
    have := buildPhysicsAux_isSome tbl comps none r h
    simpa using this
  · intro hash f st pp bf st' h go b hmem
    exact ((dfsF_physics hash f st pp bf st' h) go b hmem).2

/-- C5 witness: the unrecognized-script node scans to `none` without error,
and in the `c5root` run the collider-script bone carries a descriptor. -/
theorem c5_recognized_scripts_witness :
    buildPhysics [] unrecComps = .ok none ∧
    c5bone1.physics.isSome = anyRecognized c5go.m_Components ∧
    c5bone1.physics.isSome = true :=
  ⟨c5_recognized_scripts.1 [] unrecComps (by decide),
   c5_recognized_scripts.2.2 get_name_hash (.cons c5root .nil) initState none
     c5bf c5st (by rfl) c5go c5bone1 (by decide),
   by decide⟩

/-- C6: rigid-body creation is lookup-or-create keyed by the deterministic
name `get_rb_name`: a hit returns the existing body unchanged, the key is
always present afterwards, and a second request for the same pivot bone
name returns the body of the first request with the scene and target
table unchanged. -/
theorem c6_rigidbody_dedup :
    (∀ (armName : String) (scene : PhysScene) (targets : Dict String RBObj)
       (bn : String) (p : Bool) (r : ℚ) (o : RBObj),
       dlookup scene.objects (get_rb_name armName bn p) = some o →
       ensure_bone_rigidbody armName scene targets bn p r
         = (o, scene, targets)) ∧
    (∀ (armName : String) (scene : PhysScene) (targets : Dict String RBObj)
       (bn : String) (p : Bool) (r : ℚ),
       (dlookup
         ((ensure_bone_rigidbody armName scene targets bn p r).2.1).objects
         (get_rb_name armName bn p)).isSome = true) ∧
    (∀ (armName : String) (scene : PhysScene) (targets : Dict String RBObj)
       (bn : String) (r1 r2 : ℚ),
       ensure_bone_rigidbody armName
           (ensure_bone_rigidbody armName scene targets bn true r1).2.1
           (ensure_bone_rigidbody armName scene targets bn true r1).2.2
           bn true r2
         = ((ensure_bone_rigidbody armName scene targets bn true r1).1,
            (ensure_bone_rigidbody armName scene targets bn true r1).2.1,
            (ensure_bone_rigidbody armName scene targets bn true r1).2.2)) := by
  refine ⟨?_, ?_, ?_⟩
  · intro armName scene targets bn p r o h
    simp [ensure_bone_rigidbody, h]
  · intro armName scene targets bn p r
    rw [ensure_creates_key]
    rfl
  · intro armName scene targets bn r1 r2
    have hkey := ensure_creates_key armName scene targets bn true r1
    set e1 := ensure_bone_rigidbody armName scene targets bn true r1 with he1
    simp only [ensure_bone_rigidbody]
    rw [hkey]

/-- C6 witness: a second pivot request under the same name returns the
first body and creates nothing (still exactly one scene object). -/
theorem c6_rigidbody_dedup_witness :
    ensure_bone_rigidbody "A" c6first.2.1 c6first.2.2 "P" true 2
      = (c6first.1, c6first.2.1, c6first.2.2) ∧
    c6first.2.1.objects.length = 1 :=
  ⟨c6_rigidbody_dedup.2.2 "A" emptyScene [] "P" 1 2, by decide⟩

/-- C7: the no-collision pass emits exactly one link per unordered pair of
distinct target rigid bodies — `n*(n-1)/2` links for `n` targets — and on a
rig with three spring-bone targets the full mapper emits exactly the three
pairwise links. -/
theorem c7_pairwise_links :
    (∀ (rbs : List RBObj),
       (set_no_collision_pairs rbs).length
         = rbs.length * (rbs.length - 1) / 2) ∧
    (import_armature_physics_constraints (fun x => x) "A" c7tree
        emptyScene).nocollision_joints
      = [("A_S1_target_rigidbody", "A_S2_target_rigidbody"),
         ("A_S1_target_rigidbody", "A_S3_target_rigidbody"),
         ("A_S2_target_rigidbody", "A_S3_target_rigidbody")] ∧
    (import_armature_physics_constraints (fun x => x) "A" c7tree
        emptyScene).nocollision_joints.length = 3 := by
  refine ⟨?_, by decide, by decide⟩
  intro rbs
  rw [set_no_collision_pairs_length_choose, Nat.choose_two_right]

/-- C8: every spring constraint the mapper creates is `mkSpringConstraint`
of the bone's spring-bone descriptor: all three linear axes limit-locked to
zero, the x angular axis left unlimited, the descriptor's z angle limits
(through `math.radians`) on the y axis and its y angle limits on the z
axis, and the angular stiffness applied to both the y and z springs. -/
theorem c8_spring_constraint_axes :
    (∀ (radians : ℚ → ℚ) (phys : BonePhysics) (p t : String),
       (mkSpringConstraint radians phys p t).use_limit_lin_x = true ∧
       (mkSpringConstraint radians phys p t).use_limit_lin_y = true ∧
       (mkSpringConstraint radians phys p t).use_limit_lin_z = true ∧
       (mkSpringConstraint radians phys p t).limit_lin_x_lower = 0 ∧
       (mkSpringConstraint radians phys p t).limit_lin_x_upper = 0 ∧
       (mkSpringConstraint radians phys p t).limit_lin_y_lower = 0 ∧
       (mkSpringConstraint radians phys p t).limit_lin_y_upper = 0 ∧
       (mkSpringConstraint radians phys p t).limit_lin_z_lower = 0 ∧
       (mkSpringConstraint radians phys p t).limit_lin_z_upper = 0 ∧
       (mkSpringConstraint radians phys p t).use_limit_ang_x = false ∧
       (mkSpringConstraint radians phys p t).use_limit_ang_y = true ∧
       (mkSpringConstraint radians phys p t).use_limit_ang_z = true ∧
       (mkSpringConstraint radians phys p t).limit_ang_y_lower
         = radians phys.zAngleLimits.min ∧
       (mkSpringConstraint radians phys p t).limit_ang_y_upper
         = radians phys.zAngleLimits.max ∧
       (mkSpringConstraint radians phys p t).limit_ang_z_lower
         = radians phys.yAngleLimits.min ∧
       (mkSpringConstraint radians phys p t).limit_ang_z_upper
         = radians phys.yAngleLimits.max ∧
       (mkSpringConstraint radians phys p t).use_spring_ang_y = true ∧
       (mkSpringConstraint radians phys p t).use_spring_ang_z = true ∧
       (mkSpringConstraint radians phys p t).spring_stiffness_y
         = phys.angularStiffness ∧
       (mkSpringConstraint radians phys p t).spring_stiffness_z
         = phys.angularStiffness) ∧
    (∀ (radians : ℚ → ℚ) (armName : String) (root : BoneTree)
       (s0 : PhysScene),
       s0.spring_joints = [] →
       ∀ ct ∈ (import_armature_physics_constraints radians armName root
           s0).spring_joints,
         ∃ phys p t, phys.type = .SpringBone ∧
           ct = mkSpringConstraint radians phys p t) := by
  constructor
  · intro radians phys p t
    refine ⟨rfl, rfl, rfl, rfl, rfl, rfl, rfl, rfl, rfl, rfl, rfl, rfl, rfl,
      rfl, rfl, rfl, rfl, rfl, rfl, rfl⟩
  · intro radians armName root s0 h0 ct hct
    unfold import_armature_physics_constraints at hct
    cases hloc : recursive_locate_by_name root "Position" with
    | none =>
      rw [hloc] at hct
      dsimp only at hct
      rw [h0] at hct
      cases hct
    | some bone =>
      rw [hloc] at hct
      dsimp only at hct
      rcases foldl_processBone_joints radians armName (dfs_generator bone)
          (s0, []) ct hct with hin | ⟨b, phys, p, t, _, _, hty, hcteq⟩
      · rw [h0] at hin
        cases hin
      · exact ⟨phys, p, t, hty, hcteq⟩

/-- C8 witness: the single constraint of the one-spring rig is a
`mkSpringConstraint` of a spring-bone descriptor. -/
theorem c8_spring_constraint_axes_witness :
    ∃ phys p t, phys.type = BonePhysicsType.SpringBone ∧
      c8ct = mkSpringConstraint (fun x => x) phys p t :=
  c8_spring_constraint_axes.2 (fun x => x) "A" c8tree emptyScene rfl c8ct
    (by decide)

/-- C9: when the bone tree has no bone named `"Position"`, the physics
mapper returns the scene untouched — no rigid bodies, joints, constraints
or links are created and no error is raised. -/
theorem c9_missing_root_skips (radians : ℚ → ℚ) (armName : String)
    (root : BoneTree) (s : PhysScene)
    (h : recursive_locate_by_name root "Position" = none) :
    import_armature_physics_constraints radians armName root s = s := by
  unfold import_armature_physics_constraints
  rw [h]

/-- C9 witness: a `"Position"`-less tree leaves a non-trivial scene exactly
as it was. -/
theorem c9_missing_root_skips_witness :
    import_armature_physics_constraints (fun x => x) "A" c9tree c9scene
      = c9scene :=
  c9_missing_root_skips (fun x => x) "A" c9tree c9scene (by decide)

/-- C10: within one armature, each name-table (resp. path-hash-table) key
maps to the LAST pre-order bone carrying that name (resp. that path hash):
an earlier bone's entry is silently overwritten, and the traversal
nevertheless succeeds (no error, no warning). -/
theorem c10_duplicate_overwrite (hash : String → Nat) :
    ∀ (f : TransformForest) (st : AState) (pp : Option String)
      (bf : BoneForest) (st' : AState),
      dfsF hash st pp f = .ok (bf, st') →
      (∀ n, dlookup st'.bone_name_tbl n
        = overwriteLookup (fun b => b.name) n (preBonesF bf)
            (dlookup st.bone_name_tbl n)) ∧
      (∀ k, dlookup st'.bone_path_hash_tbl k
        = overwriteLookup (fun b => hash b.global_path) k (preBonesF bf)
            (dlookup st.bone_path_hash_tbl k)) := by
  intro f st pp bf st' h
  obtain ⟨_, _, hname, hhash, _, _⟩ := dfsF_char hash f st pp bf st' h
  constructor
  · intro n
    rw [hname]
    exact dlookup_foldl_lastVal (fun b => b.name) (preBonesF bf)
      st.bone_name_tbl n
  · intro k
    rw [hhash]
    exact dlookup_foldl_lastVal (fun b => hash b.global_path) (preBonesF bf)
      st.bone_path_hash_tbl k

/-- C10 witness: with the root and its child both named `"A"`, the run
succeeds and the name table maps `"A"` to the child — the bone visited
later in pre-order (distinguished by its local position). -/
theorem c10_duplicate_overwrite_witness :
    dlookup c10st.bone_name_tbl "A"
      = some { name := "A", localPosition := ⟨5, 5, 5⟩,
               localRotation := idV4, localScale := oneV3,
               global_path := "A", physics := none } := by
  have h := (c10_duplicate_overwrite get_name_hash (.cons c10root .nil)
    initState none c10bf c10st (by rfl)).1 "A"
  rw [h]
  decide

end SekaiAsset
